import Mathlib

/-!
Shallow embedding of `src/bloomd/filter_manager.c` (the filter manager of
bloomd).  Filter names and keys are byte strings, modelled as `List Nat`
(the bytes before the terminating NUL of the C string).  The hash map
`bloom_hashmap` is modelled as an association list with the usual
get/put/delete operations; the underlying `bloom_filter` is an external
collaborator and is modelled as an abstract state type `σ` together with a
record of its operations (`bloomf_contains`, `bloomf_add`, `bloomf_flush`,
`bloomf_close`).  Locks vanish in the sequential embedding: each exported
operation of the manager runs atomically, which matches the spec's notion
of a state reachable by a sequence of completed operations.

The uninitialized local variable `delete` of the C `return_filter` is
modelled by an explicit parameter `d0 : Bool` holding the residual stack
content that the C code reads when no branch assigns the flag.
-/

namespace Bloomd

/-- A C byte string: the bytes before the terminating NUL. -/
abbrev CStr := List Nat

/-- C `hashmap_get`: first binding of the key in the association list. -/
def hmGet (m : List (CStr × α)) (k : CStr) : Option α :=
  match m with
  | [] => none
  | p :: rest => if p.1 = k then some p.2 else hmGet rest k

/-- C `hashmap_put`: replace the first binding of the key, or append a new one. -/
def hmPut (k : CStr) (v : α) : List (CStr × α) → List (CStr × α)
  | [] => [(k, v)]
  | p :: rest => if p.1 = k then (k, v) :: rest else p :: hmPut k v rest

/-- C `hashmap_delete`: remove the bindings of the key. -/
def hmDel (k : CStr) (m : List (CStr × α)) : List (CStr × α) :=
  m.filter (fun p => p.1 ≠ k)

/-- Operations consumed from the underlying `bloom_filter` (external to the
manager): `bloomf_contains`, `bloomf_add` (returns the updated filter and
whether the key was newly added), `bloomf_flush` and `bloomf_close`. -/
structure FilterOps (σ : Type) where
  bloomf_contains : σ → CStr → Bool
  bloomf_add : σ → CStr → σ × Bool
  bloomf_flush : σ → σ
  bloomf_close : σ → σ

/-- C `bloom_filter_wrapper`: activity flag, reference count (a signed
integer in the source) and the underlying filter object. -/
structure Wrapper (σ : Type) where
  is_active : Bool
  ref_count : Int
  filter : σ
  deriving DecidableEq

/-- C `struct bloom_filtmgr`: the name → wrapper registry and the keys-only
hot set (the config only feeds the underlying filter constructor and the
directory scan, both of which are passed explicitly to the operations that
use them). -/
structure Filtmgr (σ : Type) where
  filter_map : List (CStr × Wrapper σ)
  hot_filters : List CStr
  deriving DecidableEq

/-- C `add_hot_filter`: `hashmap_put(hot_filters, name, NULL)`; on a
keys-only map this is set insertion. -/
def add_hot_filter (m : Filtmgr σ) (name : CStr) : Filtmgr σ :=
  { m with hot_filters :=
      if m.hot_filters.contains name then m.hot_filters else name :: m.hot_filters }

/-- C `take_filter`: look the name up; if present and active, increment
`ref_count` (through the stored pointer, i.e. in the map) and hand the
wrapper out, else hand out nothing. -/
def take_filter (m : Filtmgr σ) (name : CStr) : Filtmgr σ × Option (Wrapper σ) :=
  match hmGet m.filter_map name with
  | none => (m, none)
  | some filt =>
    if filt.is_active then
      let filt' : Wrapper σ := { filt with ref_count := filt.ref_count + 1 }
      ({ m with filter_map := hmPut name filt' m.filter_map }, some filt')
    else (m, none)

/-- C `return_filter`: decrement the ref count of the named wrapper; when the
decremented count is ≤ 0, unlink it and invoke `delete_filter`.  The C
local `int delete` is only assigned on that path; `d0` is the residual
value it holds otherwise.  The returned boolean records whether
`delete_filter` was invoked. -/
def return_filter (d0 : Bool) (m : Filtmgr σ) (name : CStr) : Filtmgr σ × Bool :=
  match hmGet m.filter_map name with
  | none => (m, d0)
  | some filt =>
    let rc := filt.ref_count - 1
    if rc ≤ 0 then
      ({ m with filter_map := hmDel name m.filter_map }, true)
    else
      ({ m with filter_map := hmPut name { filt with ref_count := rc } m.filter_map }, d0)

/-- Result of a keyless call (`filtmgr_flush_filter`, `filtmgr_drop_filter`,
`filtmgr_unmap_filter`): the C return code, the manager state, and whether
`delete_filter` ran during the call. -/
structure CallResult (σ : Type) where
  res : Int
  st : Filtmgr σ
  destroyed : Bool
  deriving DecidableEq

/-- Result of `filtmgr_check_keys` / `filtmgr_set_keys`: the C return code,
the contents of the `result` output array, the manager state, and whether
`delete_filter` ran during the call. -/
structure KeysResult (σ : Type) where
  res : Int
  result : List Bool
  st : Filtmgr σ
  destroyed : Bool
  deriving DecidableEq

/-- C `filtmgr_num_filters`: `hashmap_size(filter_map)`. -/
def filtmgr_num_filters (m : Filtmgr σ) : Nat :=
  m.filter_map.length

/-- C `filtmgr_check_keys`: take, probe every key in order with
`bloomf_contains` into the result array, mark hot, return. -/
def filtmgr_check_keys (F : FilterOps σ) (d0 : Bool) (m : Filtmgr σ)
    (name : CStr) (keys : List CStr) : KeysResult σ :=
  let t := take_filter m name
  match t.2 with
  | none => ⟨-1, [], t.1, false⟩
  | some filt =>
    let out := keys.map (fun k => F.bloomf_contains filt.filter k)
    let m2 := add_hot_filter t.1 name
    let r := return_filter d0 m2 name
    ⟨0, out, r.1, r.2⟩

/-- The loop of `filtmgr_set_keys`: thread the filter state through
`bloomf_add` over the keys in order, collecting the returned booleans. -/
def bloomf_add_all (F : FilterOps σ) : σ → List CStr → σ × List Bool
  | s, [] => (s, [])
  | s, k :: ks =>
    let r1 := F.bloomf_add s k
    let r2 := bloomf_add_all F r1.1 ks
    (r2.1, r1.2 :: r2.2)

/-- C `filtmgr_set_keys`: take, add every key in order with `bloomf_add`
into the result array (mutating the filter through the stored pointer,
hence the write-back into the map), mark hot, return. -/
def filtmgr_set_keys (F : FilterOps σ) (d0 : Bool) (m : Filtmgr σ)
    (name : CStr) (keys : List CStr) : KeysResult σ :=
  let t := take_filter m name
  match t.2 with
  | none => ⟨-1, [], t.1, false⟩
  | some filt =>
    let r1 := bloomf_add_all F filt.filter keys
    let m2 : Filtmgr σ :=
      { t.1 with filter_map := hmPut name { filt with filter := r1.1 } t.1.filter_map }
    let m3 := add_hot_filter m2 name
    let r := return_filter d0 m3 name
    ⟨0, r1.2, r.1, r.2⟩

/-- C `filtmgr_flush_filter`: take, `bloomf_flush`, mark hot, return. -/
def filtmgr_flush_filter (F : FilterOps σ) (d0 : Bool) (m : Filtmgr σ)
    (name : CStr) : CallResult σ :=
  let t := take_filter m name
  match t.2 with
  | none => ⟨-1, t.1, false⟩
  | some filt =>
    let m2 : Filtmgr σ :=
      { t.1 with filter_map := hmPut name { filt with filter := F.bloomf_flush filt.filter } t.1.filter_map }
    let m3 := add_hot_filter m2 name
    let r := return_filter d0 m3 name
    ⟨0, r.1, r.2⟩

/-- C `filtmgr_unmap_filter`: take, `bloomf_close`, return (no hot marking). -/
def filtmgr_unmap_filter (F : FilterOps σ) (d0 : Bool) (m : Filtmgr σ)
    (name : CStr) : CallResult σ :=
  let t := take_filter m name
  match t.2 with
  | none => ⟨-1, t.1, false⟩
  | some filt =>
    let m2 : Filtmgr σ :=
      { t.1 with filter_map := hmPut name { filt with filter := F.bloomf_close filt.filter } t.1.filter_map }
    let r := return_filter d0 m2 name
    ⟨0, r.1, r.2⟩

/-- C `filtmgr_drop_filter`: take, then decrement `ref_count` and clear
`is_active` under the registry lock (through the stored pointer), then
return. -/
def filtmgr_drop_filter (d0 : Bool) (m : Filtmgr σ) (name : CStr) : CallResult σ :=
  let t := take_filter m name
  match t.2 with
  | none => ⟨-1, t.1, false⟩
  | some filt =>
    let filt2 : Wrapper σ := { filt with ref_count := filt.ref_count - 1, is_active := false }
    let m2 : Filtmgr σ := { t.1 with filter_map := hmPut name filt2 t.1.filter_map }
    let r := return_filter d0 m2 name
    ⟨0, r.1, r.2⟩

/-- C `add_filter`: build the wrapper (`ref_count = 1`, `is_active = 1`),
then run the underlying `init_bloom_filter`; `initRes` is that call's
outcome (`some s` for success with filter state `s`, `none` for failure,
in which case the wrapper is freed and the registry is untouched). -/
def add_filter (initRes : Option σ) (m : Filtmgr σ) (name : CStr) : Int × Filtmgr σ :=
  match initRes with
  | none => (-1, m)
  | some s => (0, { m with filter_map := hmPut name ⟨true, 1, s⟩ m.filter_map })

/-- C `filtmgr_create_filter`: under the create lock, probe the registry
without touching `ref_count` or `is_active`; fail with -1 when the name is
present, else `add_filter` (the custom/default config choice only feeds
`init_bloom_filter`, whose outcome is `initRes`). -/
def filtmgr_create_filter (initRes : Option σ) (m : Filtmgr σ) (name : CStr) :
    Int × Filtmgr σ :=
  match hmGet m.filter_map name with
  | some _ => (-1, m)
  | none => add_filter initRes m name

/-- C `strncmp` on byte strings: compare up to `n` bytes, stopping at the
terminating NUL (the end of the list) or at the first difference; the sign
of the result is the sign of the first differing pair. -/
def strncmp : List Nat → List Nat → Nat → Int
  | _, _, 0 => 0
  | [], [], _ + 1 => 0
  | [], d :: _, _ + 1 => 0 - (d : Int)
  | c :: _, [], _ + 1 => (c : Int)
  | c :: a, d :: b, n + 1 => if c = d then strncmp a b n else (c : Int) - (d : Int)

/-- C `static const char FOLDER_PREFIX[] = "bloomd."` — the bytes of the
string `bloomd.` before its terminating NUL. -/
def FOLDER_PREFIX : CStr := [98, 108, 111, 111, 109, 100, 46]

/-- C `FOLDER_PREFIX_LEN = sizeof(FOLDER_PREFIX)`: the size of the array
counts the terminating NUL, so this is 8, not 7. -/
def FOLDER_PREFIX_LEN : Nat := FOLDER_PREFIX.length + 1

/-- C `filter_bloomd_folders`, the scandir filter: reject names shorter than
8 bytes, accept exactly when `strncmp(name, FOLDER_PREFIX,
FOLDER_PREFIX_LEN) == 0`. -/
def filter_bloomd_folders (name : CStr) : Bool :=
  let name_len := name.length
  if name_len < 8 then false
  else decide (strncmp name FOLDER_PREFIX FOLDER_PREFIX_LEN = 0)

/-- C `load_existing_filters`: `scan` is the outcome of
`scandir(data_dir, ...)` (`none` for failure, `some` for the raw directory
listing, which scandir feeds through `filter_bloomd_folders`); for each
match the name is advanced by `FOLDER_PREFIX_LEN` bytes and handed to
`add_filter` with the manager config (`inits` gives each
`init_bloom_filter` outcome). -/
def load_existing_filters (inits : CStr → Option σ) (m : Filtmgr σ)
    (scan : Option (List CStr)) : Int × Filtmgr σ :=
  match scan with
  | none => (-1, m)
  | some namelist =>
    let matched := namelist.filter filter_bloomd_folders
    (0, matched.foldl (fun acc folder =>
        (add_filter (inits (folder.drop FOLDER_PREFIX_LEN)) acc
          (folder.drop FOLDER_PREFIX_LEN)).2) m)

/-- C `init_filter_manager`: fresh empty maps, then discovery; the result of
`load_existing_filters` is ignored and 0 is returned (the hash map
allocations, whose failure paths return -1 before discovery, are assumed
to succeed in this embedding). -/
def init_filter_manager (inits : CStr → Option σ) (scan : Option (List CStr)) :
    Int × Filtmgr σ :=
  let m : Filtmgr σ := ⟨[], []⟩
  let r := load_existing_filters inits m scan
  (0, r.2)

/-- One completed manager operation, with the data that drives it: the
`init_bloom_filter` outcome for create, and the residual value of the
uninitialized `delete` local for every operation that calls
`return_filter`. -/
inductive MgrOp (σ : Type) where
  | opCreate : CStr → Option σ → MgrOp σ
  | opDrop : CStr → Bool → MgrOp σ
  | opCheck : CStr → List CStr → Bool → MgrOp σ
  | opSet : CStr → List CStr → Bool → MgrOp σ
  | opFlush : CStr → Bool → MgrOp σ
  | opUnmap : CStr → Bool → MgrOp σ
  | opTake : CStr → MgrOp σ
  | opReturn : CStr → Bool → MgrOp σ

/-- The manager state after one completed operation. -/
def applyOp (F : FilterOps σ) (m : Filtmgr σ) : MgrOp σ → Filtmgr σ
  | .opCreate n i => (filtmgr_create_filter i m n).2
  | .opDrop n d => (filtmgr_drop_filter d m n).st
  | .opCheck n ks d => (filtmgr_check_keys F d m n ks).st
  | .opSet n ks d => (filtmgr_set_keys F d m n ks).st
  | .opFlush n d => (filtmgr_flush_filter F d m n).st
  | .opUnmap n d => (filtmgr_unmap_filter F d m n).st
  | .opTake n => (take_filter m n).1
  | .opReturn n d => (return_filter d m n).1

/-- The manager state after a sequence of completed operations. -/
def runOps (F : FilterOps σ) (m0 : Filtmgr σ) (ops : List (MgrOp σ)) : Filtmgr σ :=
  ops.foldl (applyOp F) m0

/-- A concrete underlying filter: an ideal set of keys.  `add` reports
whether the key was newly added; `flush` and `close` do not change the
key set (re-opening is the underlying filter's contract). -/
def listFilter : FilterOps (List CStr) where
  bloomf_contains := fun s k => s.contains k
  bloomf_add := fun s k => if s.contains k then (s, false) else (k :: s, true)
  bloomf_flush := fun s => s
  bloomf_close := fun s => s

/-- The registry invariant: every wrapper reachable from the registry has
`ref_count ≥ 1`. -/
def RegInv (m : Filtmgr σ) : Prop :=
  ∀ n w, hmGet m.filter_map n = some w → 1 ≤ w.ref_count

/-!  Lemmas about the association-list hash map. -/

theorem hmGet_hmPut_self (m : List (CStr × α)) (k : CStr) (v : α) :
    hmGet (hmPut k v m) k = some v := by
  induction m with
  | nil => simp [hmPut, hmGet]
  | cons p rest ih =>
    by_cases h : p.1 = k
    · simp [hmPut, hmGet, h]
    · simp [hmPut, hmGet, h, ih]

theorem hmGet_hmPut_ne (m : List (CStr × α)) (k k' : CStr) (v : α) (h : k' ≠ k) :
    hmGet (hmPut k v m) k' = hmGet m k' := by
  have hk : ¬(k = k') := fun hh => h hh.symm
  induction m with
  | nil => simp [hmPut, hmGet, hk]
  | cons p rest ih =>
    by_cases hp : p.1 = k
    · simp [hmPut, hmGet, hp, hk]
    · simp only [hmPut, if_neg hp, hmGet]
      by_cases hp' : p.1 = k'
      · simp [hp']
      · simp [hp', ih]

theorem hmGet_hmPut_cases {m : List (CStr × α)} {k k' : CStr} {v w : α}
    (h : hmGet (hmPut k v m) k' = some w) : (k' = k ∧ w = v) ∨ hmGet m k' = some w := by
  by_cases hk : k' = k
  · subst hk
    rw [hmGet_hmPut_self] at h
    exact Or.inl ⟨rfl, (Option.some_injective _ h).symm⟩
  · rw [hmGet_hmPut_ne m k k' v hk] at h
    exact Or.inr h

theorem length_hmPut_of_get {m : List (CStr × α)} {k : CStr} {w : α} (v : α)
    (h : hmGet m k = some w) : (hmPut k v m).length = m.length := by
  induction m with
  | nil => simp [hmGet] at h
  | cons p rest ih =>
    by_cases hp : p.1 = k
    · simp [hmPut, hp]
    · simp only [hmGet, if_neg hp] at h
      simp [hmPut, hp, ih h]

theorem hmGet_hmDel_self (m : List (CStr × α)) (k : CStr) :
    hmGet (hmDel k m) k = none := by
  induction m with
  | nil => simp [hmDel, hmGet]
  | cons p rest ih =>
    by_cases hp : p.1 = k
    · simpa [hmDel, hp] using ih
    · simpa [hmDel, hmGet, hp] using ih

theorem hmDel_cons_eq {rest : List (CStr × α)} {p : CStr × α} {k : CStr} (hp : p.1 = k) :
    hmDel k (p :: rest) = hmDel k rest := by
  simp [hmDel, List.filter_cons, hp]

theorem hmDel_cons_ne {rest : List (CStr × α)} {p : CStr × α} {k : CStr} (hp : p.1 ≠ k) :
    hmDel k (p :: rest) = p :: hmDel k rest := by
  simp [hmDel, List.filter_cons, hp]

theorem hmGet_hmDel_some {m : List (CStr × α)} {k k' : CStr} {w : α}
    (h : hmGet (hmDel k m) k' = some w) : hmGet m k' = some w := by
  induction m with
  | nil => simp [hmDel, hmGet] at h
  | cons p rest ih =>
    by_cases hp : p.1 = k
    · rw [hmDel_cons_eq hp] at h
      by_cases hp' : p.1 = k'
      · exfalso
        have hk : k' = k := by rw [← hp']; exact hp
        subst hk
        rw [hmGet_hmDel_self] at h
        exact Option.noConfusion h
      · simp only [hmGet, if_neg hp']
        exact ih h
    · rw [hmDel_cons_ne hp] at h
      by_cases hp' : p.1 = k'
      · simpa [hmGet, hp'] using h
      · simp only [hmGet, if_neg hp'] at h ⊢
        exact ih h

/-!  Characterizations of `take_filter` and `return_filter`. -/

theorem take_filter_missing {m : Filtmgr σ} {name : CStr}
    (h : hmGet m.filter_map name = none) : take_filter m name = (m, none) := by
  simp [take_filter, h]

theorem take_filter_inactive {m : Filtmgr σ} {name : CStr} {w : Wrapper σ}
    (h : hmGet m.filter_map name = some w) (ha : w.is_active = false) :
    take_filter m name = (m, none) := by
  simp [take_filter, h, ha]

theorem take_filter_active {m : Filtmgr σ} {name : CStr} {w : Wrapper σ}
    (h : hmGet m.filter_map name = some w) (ha : w.is_active = true) :
    take_filter m name =
      ({ m with filter_map := hmPut name { w with ref_count := w.ref_count + 1 } m.filter_map },
        some { w with ref_count := w.ref_count + 1 }) := by
  simp [take_filter, h, ha]

theorem take_filter_isSome_iff {m : Filtmgr σ} {name : CStr} :
    (take_filter m name).2.isSome = true ↔
      ∃ w, hmGet m.filter_map name = some w ∧ w.is_active = true := by
  constructor
  · intro h
    cases hg : hmGet m.filter_map name with
    | none => rw [take_filter_missing hg] at h; simp at h
    | some w =>
      cases ha : w.is_active with
      | false => rw [take_filter_inactive hg ha] at h; simp at h
      | true => exact ⟨w, rfl, ha⟩
  · rintro ⟨w, hg, ha⟩
    rw [take_filter_active hg ha]
    rfl

theorem take_filter_some_elim {m : Filtmgr σ} {name : CStr} {w' : Wrapper σ}
    (h : (take_filter m name).2 = some w') :
    ∃ w, hmGet m.filter_map name = some w ∧ w.is_active = true ∧
      w' = { w with ref_count := w.ref_count + 1 } ∧
      (take_filter m name).1 = { m with filter_map := hmPut name w' m.filter_map } := by
  cases hg : hmGet m.filter_map name with
  | none => rw [take_filter_missing hg] at h; simp at h
  | some w =>
    cases ha : w.is_active with
    | false => rw [take_filter_inactive hg ha] at h; simp at h
    | true =>
      refine ⟨w, rfl, ha, ?_, ?_⟩
      · have := take_filter_active hg ha
        rw [this] at h
        exact (Option.some_injective _ h).symm
      · have := take_filter_active hg ha
        rw [this] at h ⊢
        rw [(Option.some_injective _ h).symm]

theorem return_filter_missing {d0 : Bool} {m : Filtmgr σ} {name : CStr}
    (h : hmGet m.filter_map name = none) : return_filter d0 m name = (m, d0) := by
  simp [return_filter, h]

theorem return_filter_stay {d0 : Bool} {m : Filtmgr σ} {name : CStr} {w : Wrapper σ}
    (h : hmGet m.filter_map name = some w) (hrc : ¬(w.ref_count - 1 ≤ 0)) :
    return_filter d0 m name =
      ({ m with filter_map := hmPut name { w with ref_count := w.ref_count - 1 } m.filter_map },
        d0) := by
  simp [return_filter, h, hrc]

theorem return_filter_del {d0 : Bool} {m : Filtmgr σ} {name : CStr} {w : Wrapper σ}
    (h : hmGet m.filter_map name = some w) (hrc : w.ref_count - 1 ≤ 0) :
    return_filter d0 m name = ({ m with filter_map := hmDel name m.filter_map }, true) := by
  simp [return_filter, h, hrc]

/-!  Failure of every name-resolving operation on an absent name. -/

theorem filtmgr_check_keys_missing {F : FilterOps σ} {d0 : Bool} {m : Filtmgr σ}
    {name : CStr} {keys : List CStr} (h : hmGet m.filter_map name = none) :
    filtmgr_check_keys F d0 m name keys = ⟨-1, [], m, false⟩ := by
  simp [filtmgr_check_keys, take_filter_missing h]

theorem filtmgr_set_keys_missing {F : FilterOps σ} {d0 : Bool} {m : Filtmgr σ}
    {name : CStr} {keys : List CStr} (h : hmGet m.filter_map name = none) :
    filtmgr_set_keys F d0 m name keys = ⟨-1, [], m, false⟩ := by
  simp [filtmgr_set_keys, take_filter_missing h]

theorem filtmgr_flush_filter_missing {F : FilterOps σ} {d0 : Bool} {m : Filtmgr σ}
    {name : CStr} (h : hmGet m.filter_map name = none) :
    filtmgr_flush_filter F d0 m name = ⟨-1, m, false⟩ := by
  simp [filtmgr_flush_filter, take_filter_missing h]

theorem filtmgr_unmap_filter_missing {F : FilterOps σ} {d0 : Bool} {m : Filtmgr σ}
    {name : CStr} (h : hmGet m.filter_map name = none) :
    filtmgr_unmap_filter F d0 m name = ⟨-1, m, false⟩ := by
  simp [filtmgr_unmap_filter, take_filter_missing h]

theorem filtmgr_drop_filter_missing {d0 : Bool} {m : Filtmgr σ}
    {name : CStr} (h : hmGet m.filter_map name = none) :
    filtmgr_drop_filter d0 m name = ⟨-1, m, false⟩ := by
  simp [filtmgr_drop_filter, take_filter_missing h]

/-!  Preservation of the registry invariant by every operation. -/

theorem regInv_put {m : Filtmgr σ} {k : CStr} {v : Wrapper σ}
    (h : RegInv m) (hv : 1 ≤ v.ref_count) :
    RegInv { m with filter_map := hmPut k v m.filter_map } := by
  intro n w hw
  rcases hmGet_hmPut_cases hw with ⟨_, rfl⟩ | h2
  · exact hv
  · exact h n w h2

theorem regInv_del {m : Filtmgr σ} {k : CStr} (h : RegInv m) :
    RegInv { m with filter_map := hmDel k m.filter_map } :=
  fun n w hw => h n w (hmGet_hmDel_some hw)

theorem regInv_hot {m : Filtmgr σ} {name : CStr} (h : RegInv m) :
    RegInv (add_hot_filter m name) := by
  intro n w hw
  exact h n w hw

theorem regInv_take {m : Filtmgr σ} (name : CStr) (h : RegInv m) :
    RegInv (take_filter m name).1 := by
  cases hg : hmGet m.filter_map name with
  | none => rw [take_filter_missing hg]; exact h
  | some w =>
    cases ha : w.is_active with
    | false => rw [take_filter_inactive hg ha]; exact h
    | true =>
      rw [take_filter_active hg ha]
      exact regInv_put h (by have := h name w hg; simp; omega)

theorem regInv_take_some {m : Filtmgr σ} {name : CStr} {w' : Wrapper σ}
    (h : RegInv m) (ht : (take_filter m name).2 = some w') : 2 ≤ w'.ref_count := by
  obtain ⟨w, hg, _, rfl, _⟩ := take_filter_some_elim ht
  have := h name w hg
  simp
  omega

theorem take_filter_some_get {m : Filtmgr σ} {name : CStr} {w' : Wrapper σ}
    (ht : (take_filter m name).2 = some w') :
    hmGet (take_filter m name).1.filter_map name = some w' := by
  obtain ⟨w, hg, ha, hw, hst⟩ := take_filter_some_elim ht
  rw [hst]
  exact hmGet_hmPut_self _ _ _

theorem regInv_return (d0 : Bool) {m : Filtmgr σ} (name : CStr) (h : RegInv m) :
    RegInv (return_filter d0 m name).1 := by
  cases hg : hmGet m.filter_map name with
  | none => rw [return_filter_missing hg]; exact h
  | some w =>
    by_cases hrc : w.ref_count - 1 ≤ 0
    · rw [return_filter_del hg hrc]
      exact regInv_del h
    · rw [return_filter_stay hg hrc]
      exact regInv_put h (by simp; omega)

theorem regInv_create (i : Option σ) {m : Filtmgr σ} (name : CStr) (h : RegInv m) :
    RegInv (filtmgr_create_filter i m name).2 := by
  cases hg : hmGet m.filter_map name with
  | some w => simp only [filtmgr_create_filter, hg]; exact h
  | none =>
    cases i with
    | none => simp only [filtmgr_create_filter, hg, add_filter]; exact h
    | some s =>
      simp only [filtmgr_create_filter, hg, add_filter]
      exact regInv_put h (by simp)

theorem regInv_check (F : FilterOps σ) (d0 : Bool) {m : Filtmgr σ}
    (name : CStr) (keys : List CStr) (h : RegInv m) :
    RegInv (filtmgr_check_keys F d0 m name keys).st := by
  have h1 : RegInv (take_filter m name).1 := regInv_take name h
  cases ht : (take_filter m name).2 with
  | none => simp only [filtmgr_check_keys, ht]; exact h1
  | some filt =>
    simp only [filtmgr_check_keys, ht]
    exact regInv_return d0 name (regInv_hot h1)

theorem regInv_set (F : FilterOps σ) (d0 : Bool) {m : Filtmgr σ}
    (name : CStr) (keys : List CStr) (h : RegInv m) :
    RegInv (filtmgr_set_keys F d0 m name keys).st := by
  have h1 : RegInv (take_filter m name).1 := regInv_take name h
  cases ht : (take_filter m name).2 with
  | none => simp only [filtmgr_set_keys, ht]; exact h1
  | some filt =>
    simp only [filtmgr_set_keys, ht]
    apply regInv_return d0 name
    apply regInv_hot
    exact regInv_put h1 (by have := regInv_take_some h ht; simp; omega)

theorem regInv_flush (F : FilterOps σ) (d0 : Bool) {m : Filtmgr σ}
    (name : CStr) (h : RegInv m) :
    RegInv (filtmgr_flush_filter F d0 m name).st := by
  have h1 : RegInv (take_filter m name).1 := regInv_take name h
  cases ht : (take_filter m name).2 with
  | none => simp only [filtmgr_flush_filter, ht]; exact h1
  | some filt =>
    simp only [filtmgr_flush_filter, ht]
    apply regInv_return d0 name
    apply regInv_hot
    exact regInv_put h1 (by have := regInv_take_some h ht; simp; omega)

theorem regInv_unmap (F : FilterOps σ) (d0 : Bool) {m : Filtmgr σ}
    (name : CStr) (h : RegInv m) :
    RegInv (filtmgr_unmap_filter F d0 m name).st := by
  have h1 : RegInv (take_filter m name).1 := regInv_take name h
  cases ht : (take_filter m name).2 with
  | none => simp only [filtmgr_unmap_filter, ht]; exact h1
  | some filt =>
    simp only [filtmgr_unmap_filter, ht]
    apply regInv_return d0 name
    exact regInv_put h1 (by have := regInv_take_some h ht; simp; omega)

theorem regInv_drop (d0 : Bool) {m : Filtmgr σ} (name : CStr) (h : RegInv m) :
    RegInv (filtmgr_drop_filter d0 m name).st := by
  have h1 : RegInv (take_filter m name).1 := regInv_take name h
  cases ht : (take_filter m name).2 with
  | none => simp only [filtmgr_drop_filter, ht]; exact h1
  | some filt =>
    simp only [filtmgr_drop_filter, ht]
    apply regInv_return d0 name
    exact regInv_put h1 (by have := regInv_take_some h ht; simp; omega)

theorem regInv_applyOp (F : FilterOps σ) {m : Filtmgr σ} (op : MgrOp σ)
    (h : RegInv m) : RegInv (applyOp F m op) := by
  cases op with
  | opCreate n i => exact regInv_create i n h
  | opDrop n d => exact regInv_drop d n h
  | opCheck n ks d => exact regInv_check F d n ks h
  | opSet n ks d => exact regInv_set F d n ks h
  | opFlush n d => exact regInv_flush F d n h
  | opUnmap n d => exact regInv_unmap F d n h
  | opTake n => exact regInv_take n h
  | opReturn n d => exact regInv_return d n h

theorem regInv_runOps (F : FilterOps σ) {m : Filtmgr σ} (ops : List (MgrOp σ))
    (h : RegInv m) : RegInv (runOps F m ops) := by
  induction ops generalizing m with
  | nil => exact h
  | cons op rest ih => exact ih (regInv_applyOp F op h)

theorem regInv_add_filter (i : Option σ) {m : Filtmgr σ} (name : CStr)
    (h : RegInv m) : RegInv (add_filter i m name).2 := by
  cases i with
  | none => exact h
  | some s => exact regInv_put h (by simp)

theorem regInv_load_fold (inits : CStr → Option σ) (l : List CStr) :
    ∀ m : Filtmgr σ, RegInv m →
      RegInv (l.foldl (fun acc folder =>
        (add_filter (inits (folder.drop FOLDER_PREFIX_LEN)) acc
          (folder.drop FOLDER_PREFIX_LEN)).2) m) := by
  induction l with
  | nil => intro m h; exact h
  | cons folder rest ih =>
    intro m h
    exact ih _ (regInv_add_filter _ _ h)

theorem regInv_init (inits : CStr → Option σ) (scan : Option (List CStr)) :
    RegInv (init_filter_manager inits scan).2 := by
  have hempty : RegInv (⟨[], []⟩ : Filtmgr σ) := by
    intro n w hw
    simp [hmGet] at hw
  cases scan with
  | none => exact hempty
  | some namelist =>
    simp only [init_filter_manager, load_existing_filters]
    exact regInv_load_fold inits _ _ hempty

/-!  The keyed loops. -/

theorem bloomf_add_all_length (F : FilterOps σ) (s : σ) (ks : List CStr) :
    (bloomf_add_all F s ks).2.length = ks.length := by
  induction ks generalizing s with
  | nil => rfl
  | cons k rest ih => simp [bloomf_add_all, ih]

theorem bloomf_add_all_getElem (F : FilterOps σ) (ks : List CStr) :
    ∀ (s : σ) (i : Nat),
      (bloomf_add_all F s ks).2[i]? =
        (ks[i]?).map (fun k =>
          (F.bloomf_add ((ks.take i).foldl (fun a b => (F.bloomf_add a b).1) s) k).2) := by
  induction ks with
  | nil => intro s i; simp [bloomf_add_all]
  | cons k rest ih =>
    intro s i
    cases i with
    | zero => simp [bloomf_add_all]
    | succ j =>
      simp only [bloomf_add_all, List.getElem?_cons_succ, List.take_succ_cons,
        List.foldl_cons]
      exact ih (F.bloomf_add s k).1 j

theorem filtmgr_check_keys_active (F : FilterOps σ) (d0 : Bool) {m : Filtmgr σ}
    {name : CStr} {w : Wrapper σ} (keys : List CStr)
    (hget : hmGet m.filter_map name = some w) (hact : w.is_active = true) :
    (filtmgr_check_keys F d0 m name keys).res = 0 ∧
    (filtmgr_check_keys F d0 m name keys).result =
      keys.map (fun k => F.bloomf_contains w.filter k) := by
  have ht := take_filter_active hget hact
  simp only [filtmgr_check_keys, ht]
  exact ⟨trivial, trivial⟩

theorem filtmgr_set_keys_active (F : FilterOps σ) (d0 : Bool) {m : Filtmgr σ}
    {name : CStr} {w : Wrapper σ} (keys : List CStr)
    (hget : hmGet m.filter_map name = some w) (hact : w.is_active = true) :
    (filtmgr_set_keys F d0 m name keys).res = 0 ∧
    (filtmgr_set_keys F d0 m name keys).result = (bloomf_add_all F w.filter keys).2 := by
  have ht := take_filter_active hget hact
  simp only [filtmgr_set_keys, ht]
  exact ⟨trivial, trivial⟩

/-- C3: a check or set call on an existing active filter succeeds for a
key batch of any length (including empty); the output has the length of
the input and its `i`-th entry is the boolean returned by the underlying
`bloomf_contains` (check) resp. `bloomf_add` (set) on the `i`-th key, the
adds being threaded through the filter state in input order. -/
theorem check_set_keys_spec (F : FilterOps σ) (d0 d1 : Bool) (m : Filtmgr σ)
    (name : CStr) (keys : List CStr) (w : Wrapper σ)
    (hget : hmGet m.filter_map name = some w) (hact : w.is_active = true) :
    ((filtmgr_check_keys F d0 m name keys).res = 0 ∧
      (filtmgr_check_keys F d0 m name keys).result.length = keys.length ∧
      ∀ i : Nat, (filtmgr_check_keys F d0 m name keys).result[i]? =
        (keys[i]?).map (fun k => F.bloomf_contains w.filter k)) ∧
    ((filtmgr_set_keys F d1 m name keys).res = 0 ∧
      (filtmgr_set_keys F d1 m name keys).result.length = keys.length ∧
      ∀ i : Nat, (filtmgr_set_keys F d1 m name keys).result[i]? =
        (keys[i]?).map (fun k =>
          (F.bloomf_add ((keys.take i).foldl (fun a b => (F.bloomf_add a b).1) w.filter)
            k).2)) := by
  obtain ⟨hc0, hcres⟩ := filtmgr_check_keys_active F d0 keys hget hact
  obtain ⟨hs0, hsres⟩ := filtmgr_set_keys_active F d1 keys hget hact
  refine ⟨⟨hc0, ?_, ?_⟩, ⟨hs0, ?_, ?_⟩⟩
  · rw [hcres, List.length_map]
  · intro i
    rw [hcres, List.getElem?_map]
  · rw [hsres, bloomf_add_all_length]
  · intro i
    rw [hsres, bloomf_add_all_getElem]

/-- Witness for C3 at a concrete manager, filter and batch. -/
theorem check_set_keys_spec_witness :
    hmGet ((⟨[([97], ⟨true, 1, ([] : List CStr)⟩)], []⟩ :
        Filtmgr (List CStr)).filter_map) [97] = some ⟨true, 1, []⟩ ∧
    (Wrapper.is_active (σ := List CStr) ⟨true, 1, []⟩ = true) ∧
    (filtmgr_check_keys listFilter false ⟨[([97], ⟨true, 1, []⟩)], []⟩ [97]
        [[1], [2], [1]]).res = 0 ∧
    (filtmgr_set_keys listFilter true ⟨[([97], ⟨true, 1, []⟩)], []⟩ [97]
        [[1], [2], [1]]).result.length = 3 := by
  refine ⟨by decide, rfl, ?_, ?_⟩
  · exact (check_set_keys_spec listFilter false true ⟨[([97], ⟨true, 1, []⟩)], []⟩ [97]
      [[1], [2], [1]] ⟨true, 1, []⟩ (by decide) rfl).1.1
  · have h := (check_set_keys_spec listFilter false true ⟨[([97], ⟨true, 1, []⟩)], []⟩ [97]
      [[1], [2], [1]] ⟨true, 1, []⟩ (by decide) rfl).2.2.1
    simpa using h

/-- C5: drop succeeds exactly on a registered active name; a successful
drop of a handle carrying only the registry's own reference
(`ref_count = 1`, no other in-flight operation) unlinks the handle from
the registry, destroys it, and every subsequent check, set, flush, unmap,
drop or take on that name fails with *no such filter* (-1 resp. none). -/
theorem drop_filter_spec (F : FilterOps σ) (d0 d1 : Bool) (m : Filtmgr σ) (name : CStr)
    (keys : List CStr) :
    ((filtmgr_drop_filter d0 m name).res = 0 ↔
      ∃ w, hmGet m.filter_map name = some w ∧ w.is_active = true) ∧
    (∀ w, hmGet m.filter_map name = some w → w.is_active = true → w.ref_count = 1 →
      hmGet (filtmgr_drop_filter d0 m name).st.filter_map name = none ∧
      (filtmgr_drop_filter d0 m name).destroyed = true ∧
      (filtmgr_check_keys F d1 (filtmgr_drop_filter d0 m name).st name keys).res = -1 ∧
      (filtmgr_set_keys F d1 (filtmgr_drop_filter d0 m name).st name keys).res = -1 ∧
      (filtmgr_flush_filter F d1 (filtmgr_drop_filter d0 m name).st name).res = -1 ∧
      (filtmgr_unmap_filter F d1 (filtmgr_drop_filter d0 m name).st name).res = -1 ∧
      (filtmgr_drop_filter d1 (filtmgr_drop_filter d0 m name).st name).res = -1 ∧
      (take_filter (filtmgr_drop_filter d0 m name).st name).2 = none) := by
  constructor
  · constructor
    · intro h0
      cases ht : (take_filter m name).2 with
      | none => simp [filtmgr_drop_filter, ht] at h0
      | some w' =>
        obtain ⟨w, hg, ha, _, _⟩ := take_filter_some_elim ht
        exact ⟨w, hg, ha⟩
    · rintro ⟨w, hg, ha⟩
      have ht := take_filter_active hg ha
      simp [filtmgr_drop_filter, ht]
  · intro w hg ha h1
    obtain ⟨wa, wrc, wf⟩ := w
    have ha' : wa = true := ha
    have h1' : wrc = 1 := h1
    subst ha'
    subst h1'
    have ht := take_filter_active hg rfl
    have hnone : hmGet (filtmgr_drop_filter d0 m name).st.filter_map name = none := by
      simp [filtmgr_drop_filter, ht, return_filter, hmGet_hmPut_self, hmGet_hmDel_self]
    have hdest : (filtmgr_drop_filter d0 m name).destroyed = true := by
      simp [filtmgr_drop_filter, ht, return_filter, hmGet_hmPut_self]
    refine ⟨hnone, hdest, ?_, ?_, ?_, ?_, ?_, ?_⟩
    · simp [filtmgr_check_keys_missing hnone]
    · simp [filtmgr_set_keys_missing hnone]
    · simp [filtmgr_flush_filter_missing hnone]
    · simp [filtmgr_unmap_filter_missing hnone]
    · simp [filtmgr_drop_filter_missing hnone]
    · simp [take_filter_missing hnone]

/-- Witness for C5 at a concrete manager holding one active filter with
`ref_count = 1`. -/
theorem drop_filter_spec_witness :
    hmGet ((⟨[([97], ⟨true, 1, ([] : List CStr)⟩)], []⟩ :
        Filtmgr (List CStr)).filter_map) [97] = some ⟨true, 1, []⟩ ∧
    (filtmgr_drop_filter false (⟨[([97], ⟨true, 1, []⟩)], []⟩ :
        Filtmgr (List CStr)) [97]).res = 0 ∧
    hmGet (filtmgr_drop_filter false (⟨[([97], ⟨true, 1, []⟩)], []⟩ :
        Filtmgr (List CStr)) [97]).st.filter_map [97] = none ∧
    (filtmgr_drop_filter false (⟨[([97], ⟨true, 1, []⟩)], []⟩ :
        Filtmgr (List CStr)) [97]).destroyed = true := by
  have h := drop_filter_spec listFilter false true
    (⟨[([97], ⟨true, 1, []⟩)], []⟩ : Filtmgr (List CStr)) [97] []
  refine ⟨by decide, ?_, ?_, ?_⟩
  · exact h.1.mpr ⟨⟨true, 1, []⟩, by decide, rfl⟩
  · exact (h.2 ⟨true, 1, []⟩ (by decide) rfl rfl).1
  · exact (h.2 ⟨true, 1, []⟩ (by decide) rfl rfl).2.1

/-- C8: a successful unmap leaves the handle registered, still active,
with its reference count restored and the underlying filter closed; the
registry size is unchanged and a subsequent take on the name succeeds. -/
theorem unmap_filter_spec (F : FilterOps σ) (d0 : Bool) (m : Filtmgr σ) (name : CStr)
    (rc : Int) (wf : σ) (hget : hmGet m.filter_map name = some ⟨true, rc, wf⟩)
    (hrc : 1 ≤ rc) :
    (filtmgr_unmap_filter F d0 m name).res = 0 ∧
    hmGet (filtmgr_unmap_filter F d0 m name).st.filter_map name =
      some ⟨true, rc, F.bloomf_close wf⟩ ∧
    filtmgr_num_filters (filtmgr_unmap_filter F d0 m name).st = filtmgr_num_filters m ∧
    (take_filter (filtmgr_unmap_filter F d0 m name).st name).2 =
      some ⟨true, rc + 1, F.bloomf_close wf⟩ := by
  have ht := take_filter_active hget rfl
  have hrc1 : ¬((rc + 1) - 1 ≤ 0) := by omega
  have hrc2 : ¬(rc ≤ 0) := by omega
  have hres : (filtmgr_unmap_filter F d0 m name).res = 0 := by
    simp [filtmgr_unmap_filter, ht]
  have hfin : hmGet (filtmgr_unmap_filter F d0 m name).st.filter_map name =
      some ⟨true, rc, F.bloomf_close wf⟩ := by
    simp [filtmgr_unmap_filter, ht, return_filter, hmGet_hmPut_self, hrc1, hrc2,
      Int.add_sub_cancel]
  refine ⟨hres, hfin, ?_, ?_⟩
  · have g1 : hmGet (hmPut name (⟨true, rc + 1, wf⟩ : Wrapper σ) m.filter_map) name =
        some ⟨true, rc + 1, wf⟩ := hmGet_hmPut_self _ _ _
    have g2 : hmGet (hmPut name (⟨true, rc + 1, F.bloomf_close wf⟩ : Wrapper σ)
        (hmPut name (⟨true, rc + 1, wf⟩ : Wrapper σ) m.filter_map)) name =
        some ⟨true, rc + 1, F.bloomf_close wf⟩ := hmGet_hmPut_self _ _ _
    have l1 := length_hmPut_of_get (⟨true, rc + 1, wf⟩ : Wrapper σ) hget
    have l2 := length_hmPut_of_get (⟨true, rc + 1, F.bloomf_close wf⟩ : Wrapper σ) g1
    have l3 := length_hmPut_of_get (⟨true, rc, F.bloomf_close wf⟩ : Wrapper σ) g2
    simp [filtmgr_unmap_filter, ht, return_filter, hmGet_hmPut_self, hrc1, hrc2,
      filtmgr_num_filters, Int.add_sub_cancel, l1, l2, l3]
  · rw [take_filter_active hfin rfl]

/-- Witness for C8 at a concrete manager holding one active filter. -/
theorem unmap_filter_spec_witness :
    hmGet ((⟨[([97], ⟨true, 2, ([[5]] : List CStr)⟩)], []⟩ :
        Filtmgr (List CStr)).filter_map) [97] = some ⟨true, 2, [[5]]⟩ ∧
    (1 : Int) ≤ 2 ∧
    (filtmgr_unmap_filter listFilter false (⟨[([97], ⟨true, 2, [[5]]⟩)], []⟩ :
        Filtmgr (List CStr)) [97]).res = 0 ∧
    hmGet (filtmgr_unmap_filter listFilter false (⟨[([97], ⟨true, 2, [[5]]⟩)], []⟩ :
        Filtmgr (List CStr)) [97]).st.filter_map [97] = some ⟨true, 2, [[5]]⟩ := by
  have h := unmap_filter_spec listFilter false
    (⟨[([97], ⟨true, 2, [[5]]⟩)], []⟩ : Filtmgr (List CStr)) [97] 2 [[5]]
    (by decide) (by norm_num)
  exact ⟨by decide, by norm_num, h.1, h.2.1⟩

/-- C6: create on an already-registered name fails with -1 and leaves the
manager state unchanged — the existing handle, its fields, and the
registry size are untouched. -/
theorem create_filter_exists_spec (i : Option σ) (m : Filtmgr σ) (name : CStr)
    (w : Wrapper σ) (h : hmGet m.filter_map name = some w) :
    filtmgr_create_filter i m name = (-1, m) ∧
    hmGet (filtmgr_create_filter i m name).2.filter_map name = some w ∧
    filtmgr_num_filters (filtmgr_create_filter i m name).2 = filtmgr_num_filters m := by
  have he : filtmgr_create_filter i m name = (-1, m) := by
    simp [filtmgr_create_filter, h]
  exact ⟨he, by rw [he]; exact h, by rw [he]⟩

/-- Witness for C6 at a concrete manager already holding the name. -/
theorem create_filter_exists_spec_witness :
    hmGet ((⟨[([97], ⟨true, 1, ([] : List CStr)⟩)], []⟩ :
        Filtmgr (List CStr)).filter_map) [97] = some ⟨true, 1, []⟩ ∧
    filtmgr_create_filter (some ([] : List CStr)) ⟨[([97], ⟨true, 1, []⟩)], []⟩ [97] =
      (-1, ⟨[([97], ⟨true, 1, []⟩)], []⟩) :=
  ⟨by decide,
   (create_filter_exists_spec (some []) ⟨[([97], ⟨true, 1, []⟩)], []⟩ [97] ⟨true, 1, []⟩
     (by decide)).1⟩

/-- C7: when the underlying `init_bloom_filter` fails, create frees the
partially built wrapper, returns -1, and the registry is untouched: the
name is not inserted and the registry size is unchanged. -/
theorem create_filter_init_fail_spec (m : Filtmgr σ) (name : CStr)
    (h : hmGet m.filter_map name = none) :
    filtmgr_create_filter (none : Option σ) m name = (-1, m) ∧
    hmGet (filtmgr_create_filter (none : Option σ) m name).2.filter_map name = none ∧
    filtmgr_num_filters (filtmgr_create_filter (none : Option σ) m name).2 =
      filtmgr_num_filters m := by
  have he : filtmgr_create_filter (none : Option σ) m name = (-1, m) := by
    simp [filtmgr_create_filter, add_filter, h]
  exact ⟨he, by rw [he]; exact h, by rw [he]⟩

/-- Witness for C7 at a concrete manager not holding the name. -/
theorem create_filter_init_fail_spec_witness :
    hmGet ((⟨[], []⟩ : Filtmgr (List CStr)).filter_map) [97] = none ∧
    filtmgr_create_filter (none : Option (List CStr)) ⟨[], []⟩ [97] = (-1, ⟨[], []⟩) :=
  ⟨by decide, (create_filter_init_fail_spec ⟨[], []⟩ [97] (by decide)).1⟩

/-- C9: when the directory scan fails, discovery registers nothing (while
reporting -1 itself), `init_filter_manager` still returns 0 with an empty
registry, and a subsequent create on the resulting manager succeeds. -/
theorem init_scan_failure_spec (inits : CStr → Option σ) :
    init_filter_manager inits (none : Option (List CStr)) = (0, (⟨[], []⟩ : Filtmgr σ)) ∧
    (load_existing_filters inits (⟨[], []⟩ : Filtmgr σ) none).1 = -1 ∧
    filtmgr_num_filters (init_filter_manager inits (none : Option (List CStr))).2 = 0 ∧
    ∀ (name : CStr) (s : σ),
      filtmgr_create_filter (some s)
          (init_filter_manager inits (none : Option (List CStr))).2 name =
        (0, ⟨[(name, ⟨true, 1, s⟩)], []⟩) := by
  refine ⟨rfl, rfl, rfl, ?_⟩
  intro name s
  rfl

/-- C10: create returns only 0 or -1; both failure kinds — *already
exists* and *create failed* — surface as the same value -1. -/
theorem create_filter_result_spec :
    (∀ (i : Option σ) (m : Filtmgr σ) (name : CStr),
      (filtmgr_create_filter i m name).1 = 0 ∨ (filtmgr_create_filter i m name).1 = -1) ∧
    (∀ (i : Option σ) (m : Filtmgr σ) (name : CStr) (w : Wrapper σ),
      hmGet m.filter_map name = some w → (filtmgr_create_filter i m name).1 = -1) ∧
    (∀ (m : Filtmgr σ) (name : CStr),
      hmGet m.filter_map name = none →
      (filtmgr_create_filter (none : Option σ) m name).1 = -1) := by
  refine ⟨?_, ?_, ?_⟩
  · intro i m name
    cases hg : hmGet m.filter_map name with
    | some w => right; simp [filtmgr_create_filter, hg]
    | none =>
      cases i with
      | none => right; simp [filtmgr_create_filter, add_filter, hg]
      | some s => left; simp [filtmgr_create_filter, add_filter, hg]
  · intro i m name w hw
    simp [filtmgr_create_filter, hw]
  · intro m name hn
    simp [filtmgr_create_filter, add_filter, hn]

/-- Witness for C10: both failure kinds observed as -1 at concrete inputs. -/
theorem create_filter_result_spec_witness :
    hmGet ((⟨[([97], ⟨true, 1, ([] : List CStr)⟩)], []⟩ :
        Filtmgr (List CStr)).filter_map) [97] = some ⟨true, 1, []⟩ ∧
    (filtmgr_create_filter (some ([] : List CStr))
        ⟨[([97], ⟨true, 1, []⟩)], []⟩ [97]).1 = -1 ∧
    hmGet ((⟨[], []⟩ : Filtmgr (List CStr)).filter_map) [97] = none ∧
    (filtmgr_create_filter (none : Option (List CStr)) ⟨[], []⟩ [97]).1 = -1 :=
  ⟨by decide,
   create_filter_result_spec.2.1 (some []) ⟨[([97], ⟨true, 1, []⟩)], []⟩ [97]
     ⟨true, 1, []⟩ (by decide),
   by decide,
   create_filter_result_spec.2.2 ⟨[], []⟩ [97] (by decide)⟩

/-- C4: in every manager state reachable from construction by a sequence
of completed operations (create, drop, check, set, flush, unmap, take,
return), every handle reachable from the registry has `ref_count ≥ 1`
(hence in particular no registered handle's count is ever below zero). -/
theorem refcount_invariant_spec (F : FilterOps σ) (inits : CStr → Option σ)
    (scan : Option (List CStr)) (ops : List (MgrOp σ)) (n : CStr) (w : Wrapper σ)
    (h : hmGet (runOps F (init_filter_manager inits scan).2 ops).filter_map n = some w) :
    1 ≤ w.ref_count ∧ 0 ≤ w.ref_count := by
  have hinv := regInv_runOps F ops (regInv_init inits scan)
  have h1 := hinv n w h
  exact ⟨h1, by omega⟩

/-- Witness for C4 after a concrete run: create, a check batch, a bare
take, and a flush. -/
theorem refcount_invariant_spec_witness :
    hmGet (runOps listFilter
        (init_filter_manager (fun _ => some ([] : List CStr)) none).2
        [MgrOp.opCreate [97] (some []), MgrOp.opCheck [97] [[1]] true,
         MgrOp.opTake [97], MgrOp.opFlush [97] false]).filter_map [97] =
      some ⟨true, 2, []⟩ ∧
    (1 : Int) ≤ (Wrapper.ref_count (σ := List CStr) ⟨true, 2, []⟩) :=
  ⟨by decide,
   (refcount_invariant_spec listFilter (fun _ => some []) none
     [MgrOp.opCreate [97] (some []), MgrOp.opCheck [97] [[1]] true,
      MgrOp.opTake [97], MgrOp.opFlush [97] false] [97] ⟨true, 2, []⟩ (by decide)).1⟩

/-!  Discovery: the prefix comparison of `filter_bloomd_folders` uses
`FOLDER_PREFIX_LEN = sizeof(FOLDER_PREFIX) = 8`, which counts the
terminating NUL of the string `bloomd.`, so the eighth compared byte of a
candidate name must equal NUL — impossible for a NUL-free directory name
that already passed the `name_len < 8` rejection. -/

theorem strncmp_eq_zero_of_len_succ :
    ∀ (b a : CStr), 0 ∉ a → 0 ∉ b → strncmp a b (b.length + 1) = 0 → a = b := by
  intro b
  induction b with
  | nil =>
    intro a ha _ h
    cases a with
    | nil => rfl
    | cons c a' =>
      exfalso
      simp only [List.length_nil, Nat.zero_add, strncmp] at h
      have hc : c ≠ 0 := fun hc => ha (hc ▸ List.mem_cons_self c a')
      omega
  | cons d b' ih =>
    intro a ha hb h
    cases a with
    | nil =>
      exfalso
      simp only [List.length_cons, strncmp] at h
      have hd : d ≠ 0 := fun hd => hb (hd ▸ List.mem_cons_self d b')
      omega
    | cons c a' =>
      simp only [List.length_cons, strncmp] at h
      by_cases hcd : c = d
      · subst hcd
        simp only [if_pos rfl] at h
        have ha' : 0 ∉ a' := fun hm => ha (List.mem_cons_of_mem c hm)
        have hb' : 0 ∉ b' := fun hm => hb (List.mem_cons_of_mem c hm)
        rw [ih a' ha' hb' h]
      · simp only [if_neg hcd] at h
        exfalso
        exact hcd (by omega)

theorem filter_bloomd_folders_never (name : CStr) (h : 0 ∉ name) :
    filter_bloomd_folders name = false := by
  by_cases hlen : name.length < 8
  · simp [filter_bloomd_folders, hlen]
  · simp only [filter_bloomd_folders, if_neg hlen, decide_eq_false_iff_not]
    intro hz
    have hpre : 0 ∉ FOLDER_PREFIX := by decide
    have hlen7 : List.length FOLDER_PREFIX + 1 = FOLDER_PREFIX_LEN := by decide
    rw [← hlen7] at hz
    have heq := strncmp_eq_zero_of_len_succ FOLDER_PREFIX name h hpre hz
    rw [heq] at hlen
    exact hlen (by decide)

/-- C1 (code bug): the data directory contains the single directory
`bloomd.u` — bytes `[98, 108, 111, 111, 109, 100, 46, 117]`, length 8 and
carrying the prefix `bloomd.` — yet `filter_bloomd_folders` rejects it, so
startup discovery registers no filter at all (the claim expects a
registered filter named `u`).  The cause is `FOLDER_PREFIX_LEN =
sizeof(FOLDER_PREFIX) = 8`: `strncmp` then also compares the terminating
NUL of `bloomd.` against the name's eighth byte, which cannot be NUL once
the length check has passed; `filter_bloomd_folders_never` shows no
directory name is ever accepted. -/
theorem discovery_misses_bloomd_folder :
    filter_bloomd_folders [98, 108, 111, 111, 109, 100, 46, 117] = false ∧
    (init_filter_manager (fun _ => some ([] : List CStr))
        (some [[98, 108, 111, 111, 109, 100, 46, 117]])).1 = 0 ∧
    (init_filter_manager (fun _ => some ([] : List CStr))
        (some [[98, 108, 111, 111, 109, 100, 46, 117]])).2.filter_map = [] ∧
    filtmgr_num_filters (init_filter_manager (fun _ => some ([] : List CStr))
        (some [[98, 108, 111, 111, 109, 100, 46, 117]])).2 = 0 := by
  refine ⟨by decide, rfl, by decide, by decide⟩

/-- C2 (code bug): the `delete` local of `return_filter` is read without
having been assigned whenever the decremented count stays positive or the
name is absent.  With residual stack value `true` (`d0 = true`), a return
on a handle whose decremented `ref_count` is 1 > 0 still invokes
`delete_filter` while the handle stays registered, and a return on an
absent name invokes `delete_filter` on a NULL wrapper — both contradicting
the claim that no destruction happens in those cases. -/
theorem return_filter_uninit_destroy :
    ((return_filter true (⟨[([120], ⟨true, 2, ([] : List CStr)⟩)], []⟩ :
        Filtmgr (List CStr)) [120]).2 = true ∧
      hmGet (return_filter true (⟨[([120], ⟨true, 2, ([] : List CStr)⟩)], []⟩ :
        Filtmgr (List CStr)) [120]).1.filter_map [120] = some ⟨true, 1, []⟩) ∧
    (return_filter true (⟨[], []⟩ : Filtmgr (List CStr)) [120]).2 = true := by
  refine ⟨⟨by decide, by decide⟩, by decide⟩

end Bloomd
